import Mathlib

/-!
Verification of the keyborder layout-conversion engine
(`layout_indicator_tray.py`) against its natural-language specification.

The pure conversion core (character tables, layout detection, translation)
is embedded directly.  The effectful conversion paths are embedded as pure
functions from an explicit environment (clipboard contents, console state,
foreground-window validity) to a result flag together with a trace of the
synthetic-input / clipboard / layout-switch events they emit.
-/

set_option maxHeartbeats 2000000

namespace Keyborder

/-- Table `EN_CHARS` from the source: the QWERTY character table.
The literal braces of the Python source are written with hex escapes. -/
def EN_CHARS : String :=
  "`qwertyuiop[]asdfghjkl;'zxcvbnm,./~QWERTYUIOP\x7b\x7dASDFGHJKL:\"ZXCVBNM<>?@#$^&"

/-- Table `RU_CHARS` from the source: the ЙЦУКЕН character table. -/
def RU_CHARS : String :=
  "ёйцукенгшщзхъфывапролджэячсмитьбю.ЁЙЦУКЕНГШЩЗХЪФЫВАПРОЛДЖЭЯЧСМИТЬБЮ,\"№;:?"

/-- A Python `str.maketrans(a, b)` table: the list of (key, replacement)
pairs, built positionally from the two strings. -/
def EN_TO_RU : List (Char × Char) := EN_CHARS.data.zip RU_CHARS.data

/-- Table `RU_TO_EN = str.maketrans(RU_CHARS, EN_CHARS)`. -/
def RU_TO_EN : List (Char × Char) := RU_CHARS.data.zip EN_CHARS.data

/-- Lookup in a `maketrans` table.  Python builds a dict left to right, so
for duplicate keys the LAST pair wins (hence the `reverse`); a character
that is not a key maps to itself. -/
def tableLookup (table : List (Char × Char)) (c : Char) : Char :=
  match table.reverse.find? (fun p => p.1 == c) with
  | some p => p.2
  | none => c

/-- Python `text.translate(table)`: apply the table to every character. -/
def translate (text : String) (table : List (Char × Char)) : String :=
  String.mk (text.data.map (tableLookup table))

/-- Function `detect_layout` from the source: count the characters belonging to each
table; ties (including empty text) go to `"en"`. -/
def detect_layout (text : String) : String :=
  let en_count := text.data.countP (fun c => EN_CHARS.data.contains c)
  let ru_count := text.data.countP (fun c => RU_CHARS.data.contains c)
  if en_count ≥ ru_count then "en" else "ru"

/-- Function `convert_text` from the source. -/
def convert_text (text : String) : String :=
  if detect_layout text = "en" then translate text EN_TO_RU
  else translate text RU_TO_EN

/-! Virtual-key and layout-identifier constants from the source. -/

def VK_BACKSPACE : Nat := 0x08
def VK_SHIFT : Nat := 0x10
def VK_CONTROL : Nat := 0x11
def VK_END : Nat := 0x23
def VK_LEFT : Nat := 0x25
def VK_INSERT : Nat := 0x2D
def VK_C : Nat := 0x43
def VK_V : Nat := 0x56
def HKL_EN : Nat := 0x04090409
def HKL_RU : Nat := 0x04190419

/-- Observable effects emitted by the conversion paths.  `sleep` delays are
recorded in milliseconds.  `keyPress vk` is one `send_key_press` (down+up),
`ctrlCombo vk` one `send_ctrl_key`, `twoModCombo` one
`send_two_modifier_combo`, and `typeChar c` one Unicode down/up pair of
`type_text`. -/
inductive Event where
  | sleep (ms : Nat)
  | keyPress (vk : Nat)
  | ctrlCombo (vk : Nat)
  | twoModCombo (mod1 mod2 vk : Nat)
  | typeChar (c : Char)
  | clearClip
  | setClip (s : String)
  | layoutSwitch (hkl : Nat)
deriving DecidableEq

/-- Function `type_text` from the source: one Unicode injection per character, each
followed by `time.sleep(0.01)`. -/
def type_text (text : String) : List Event :=
  (text.data.map (fun c => [Event.typeChar c, Event.sleep 10])).flatten

/-- The backspace deletion loop shared by the console and terminal paths:
`for _ in range(n): send_key_press(VK_BACKSPACE); time.sleep(0.01)`. -/
def backspace_events (n : Nat) : List Event :=
  (List.replicate n [Event.keyPress VK_BACKSPACE, Event.sleep 10]).flatten

/-- Function `switch_keyboard_layout` from the source: posts
`WM_INPUTLANGCHANGEREQUEST` with `HKL_EN` for `"en"`, else `HKL_RU`, but
only when the foreground-window query yields a valid handle. -/
def switch_keyboard_layout (toLang : String) (fgValid : Bool) : List Event :=
  let hkl := if toLang = "en" then HKL_EN else HKL_RU
  if fgValid then [Event.layoutSwitch hkl] else []

/-- Function `target_layout`, computing `'ru' if source_layout == 'en' else 'en'`
in all three conversion paths. -/
def target_layout (sourceLayout : String) : String :=
  if sourceLayout = "en" then "ru" else "en"

/-- Python truthiness test used on acquired text: `None` and the empty
string are falsy. -/
def isFalsy : Option String → Bool
  | none => true
  | some s => s.data.isEmpty

/-- Model of Python `str.rstrip()` (trailing whitespace removed). -/
def pyRstrip (s : String) : String :=
  String.mk ((s.data.reverse.dropWhile Char.isWhitespace).reverse)

/-- Model of Python `str.strip()` (leading and trailing whitespace
removed). -/
def pyStrip (s : String) : String :=
  String.mk (((s.data.dropWhile Char.isWhitespace).reverse.dropWhile
    Char.isWhitespace).reverse)

/-- Helper for `pyWords`: splits a character list on whitespace runs,
accumulating the current word reversed in `acc`. -/
def wordsAux : List Char → List Char → List (List Char)
  | [], acc => if acc.isEmpty then [] else [acc.reverse]
  | c :: cs, acc =>
    if Char.isWhitespace c then
      if acc.isEmpty then wordsAux cs [] else acc.reverse :: wordsAux cs []
    else wordsAux cs (c :: acc)

/-- Model of Python `str.split()` with no argument: split on whitespace
runs, producing no empty words. -/
def pyWords (s : String) : List String :=
  (wordsAux s.data []).map String.mk

/-! ## The LegacyConsole acquisition path (`get_console_last_word`) -/

/-- Environment for `get_console_last_word`: outcomes of the Windows
console API calls.  `rowRead` abstracts the characters that
`ReadConsoleOutputCharacterW` returns for the cursor row up to the cursor
column. -/
structure ConsoleEnv where
  attachOk : Bool
  stdHandleOk : Bool
  bufferInfoOk : Bool
  cursorX : Nat
  rowRead : String
deriving DecidableEq

/-- Console API calls performed by `get_console_last_word`, in order. -/
inductive ConsoleOp where
  | freeConsole
  | attachConsole
  | getStdHandle
  | getBufferInfo
  | readRow
deriving DecidableEq, BEq

/-- Function `get_console_last_word` from the source, returning the extracted word
(if any) together with the sequence of console API calls it performed.
The source first calls `FreeConsole`, then `AttachConsole`; on the
invalid-std-handle path it calls `FreeConsole` before returning, but on
the buffer-info-failure and cursor-at-column-zero paths it returns
without detaching. -/
def get_console_last_word (env : ConsoleEnv) : Option String × List ConsoleOp :=
  let t0 : List ConsoleOp := [ConsoleOp.freeConsole, ConsoleOp.attachConsole]
  if env.attachOk = false then (none, t0)
  else
    let t1 := t0 ++ [ConsoleOp.getStdHandle]
    if env.stdHandleOk = false then (none, t1 ++ [ConsoleOp.freeConsole])
    else
      let t2 := t1 ++ [ConsoleOp.getBufferInfo]
      if env.bufferInfoOk = false then (none, t2)
      else if env.cursorX = 0 then (none, t2)
      else
        let t3 := t2 ++ [ConsoleOp.readRow, ConsoleOp.freeConsole]
        let line := pyRstrip env.rowRead
        if line.data = [] then (none, t3)
        else
          match (pyWords line).getLast? with
          | some w => (some w, t3)
          | none => (none, t3)

/-! ## The three conversion paths -/

/-- Function `convert_in_console` from the source (LegacyConsole path). -/
def convert_in_console (cenv : ConsoleEnv) (fgValid : Bool) : Bool × List Event :=
  let pre : List Event := [Event.sleep 100]
  match (get_console_last_word cenv).1 with
  | none => (false, pre)
  | some word =>
    if word.data = [] then (false, pre)
    else
      let converted := convert_text word
      if converted = word then (false, pre)
      else
        let tgt := target_layout (detect_layout word)
        (true, pre ++ backspace_events word.length ++ [Event.sleep 50] ++
          type_text converted ++ [Event.sleep 50] ++
          switch_keyboard_layout tgt fgValid)

/-- Environment for the ModernTerminal path: the clipboard contents read
after the Ctrl+Shift+C copy shortcut, and foreground-window validity. -/
structure TermEnv where
  clip : Option String
  fgValid : Bool
deriving DecidableEq

/-- Function `convert_in_terminal` from the source (ModernTerminal path). -/
def convert_in_terminal (env : TermEnv) : Bool × List Event :=
  let pre : List Event := [Event.sleep 100, Event.clearClip,
    Event.twoModCombo VK_CONTROL VK_SHIFT VK_C, Event.sleep 200]
  match env.clip with
  | none => (false, pre)
  | some w0 =>
    if w0.data = [] then (false, pre)
    else
      let word := pyStrip w0
      if word.data = [] then (false, pre)
      else
        let converted := convert_text word
        if converted = word then (false, pre)
        else
          let tgt := target_layout (detect_layout word)
          (true, pre ++ [Event.keyPress VK_END, Event.sleep 30] ++
            backspace_events word.length ++ [Event.sleep 50] ++
            type_text converted ++ [Event.sleep 50] ++
            switch_keyboard_layout tgt env.fgValid)

/-- Environment for the Plain path: the clipboard contents read after the
primary Ctrl+Insert copy, after the fallback word-extension copy, whether
`set_clipboard_text` succeeds, and foreground-window validity. -/
structure PlainEnv where
  clip1 : Option String
  clip2 : Option String
  setClipboardOk : Bool
  fgValid : Bool
deriving DecidableEq

/-- The acquisition segment of the Plain path of `convert_selected_text`:
clear clipboard, Ctrl+Insert copy, read; if the result is falsy, send the
Ctrl+Shift+Left word-extension combo, copy again, and re-read. -/
def plain_acquire (env : PlainEnv) : Option String × List Event :=
  let t0 : List Event := [Event.sleep 50, Event.clearClip,
    Event.ctrlCombo VK_INSERT, Event.sleep 80]
  if isFalsy env.clip1 then
    (env.clip2, t0 ++ [Event.twoModCombo VK_CONTROL VK_SHIFT VK_LEFT,
      Event.sleep 30, Event.ctrlCombo VK_INSERT, Event.sleep 50])
  else (env.clip1, t0)

/-- The Plain (regular application) branch of `convert_selected_text`:
acquire via the clipboard, convert, and replace by writing the converted
text to the clipboard and pasting with Ctrl+V. -/
def convert_selected_text_plain (env : PlainEnv) : Bool × List Event :=
  let acq := plain_acquire env
  if isFalsy acq.1 then (false, acq.2)
  else
    let s := acq.1.getD ""
    let converted := convert_text s
    if converted = s then (false, acq.2)
    else
      let tgt := target_layout (detect_layout s)
      let tr2 := acq.2 ++ [Event.setClip converted]
      if env.setClipboardOk = false then (false, tr2)
      else (true, tr2 ++ [Event.ctrlCombo VK_V, Event.sleep 20] ++
        switch_keyboard_layout tgt env.fgValid)

/-! ## Window classification -/

/-- List `console_classes` from `is_console_window`. -/
def console_classes : List String :=
  ["ConsoleWindowClass", "CASCADIA_HOSTING_WINDOW_CLASS", "PseudoConsoleWindow"]

/-- Function `is_console_window` from the source, over the class name that
`GetClassNameW` yields for the handle (the empty string for a null or
invalid handle). -/
def is_console_window (className : String) : Bool :=
  console_classes.contains className

/-- Function `is_classic_console` from the source. -/
def is_classic_console (className : String) : Bool :=
  className == "ConsoleWindowClass"

/-- The three window categories of the specification. -/
inductive WindowCategory where
  | Plain
  | LegacyConsole
  | ModernTerminal
deriving DecidableEq

/-- The classification performed by the dispatch at the top of
`convert_selected_text`. -/
def classify_window (className : String) : WindowCategory :=
  if is_console_window className then
    if is_classic_console className then WindowCategory.LegacyConsole
    else WindowCategory.ModernTerminal
  else WindowCategory.Plain

/-- Function `convert_selected_text` from the source: dispatch on the foreground
window class, then run the matching strategy. -/
def convert_selected_text (className : String) (cenv : ConsoleEnv)
    (tenv : TermEnv) (penv : PlainEnv) (fgValid : Bool) : Bool × List Event :=
  match classify_window className with
  | WindowCategory.LegacyConsole => convert_in_console cenv fgValid
  | WindowCategory.ModernTerminal => convert_in_terminal tenv
  | WindowCategory.Plain => convert_selected_text_plain penv

/-! ## Trace observers -/

/-- Is this event one backspace key press? -/
def isBackspace : Event → Bool
  | Event.keyPress vk => vk == VK_BACKSPACE
  | _ => false

/-- Number of backspace key events in a trace. -/
def backspaceCount (tr : List Event) : Nat := tr.countP isBackspace

/-- The character of a Unicode injection event, if any. -/
def typedChar? : Event → Option Char
  | Event.typeChar c => some c
  | _ => none

/-- The characters injected by a trace, in order. -/
def typedString (tr : List Event) : List Char := tr.filterMap typedChar?

/-- Is this event the Ctrl+Shift+Left word-extension combo? -/
def isFallbackCombo : Event → Bool
  | Event.twoModCombo m1 m2 vk =>
    m1 == VK_CONTROL && m2 == VK_SHIFT && vk == VK_LEFT
  | _ => false

/-- Number of Ctrl+Shift+Left fallback combos in a trace. -/
def fallbackComboCount (tr : List Event) : Nat := tr.countP isFallbackCombo

/-- Is this event the Ctrl+Insert copy combo? -/
def isCopyCombo : Event → Bool
  | Event.ctrlCombo vk => vk == VK_INSERT
  | _ => false

/-- Number of Ctrl+Insert copy combos in a trace. -/
def copyComboCount (tr : List Event) : Nat := tr.countP isCopyCombo

/-- The strings written to the clipboard by a trace, in order. -/
def setClipEvents (tr : List Event) : List String :=
  tr.filterMap (fun e => match e with
    | Event.setClip s => some s
    | _ => none)

/-- Number of Ctrl+V paste combos in a trace. -/
def pasteCount (tr : List Event) : Nat :=
  tr.countP (fun e => match e with
    | Event.ctrlCombo vk => vk == VK_V
    | _ => false)

/-- The layout identifiers requested by a trace, in order. -/
def switchTargets (tr : List Event) : List Nat :=
  tr.filterMap (fun e => match e with
    | Event.layoutSwitch hkl => some hkl
    | _ => none)

/-- Is this event a backspace, a Unicode injection, or a layout-switch
request (the events the replacement step is specified by)? -/
def isReplEvent : Event → Bool
  | Event.keyPress vk => vk == VK_BACKSPACE
  | Event.typeChar _ => true
  | Event.layoutSwitch _ => true
  | _ => false

/-- The replacement-relevant events of a trace, in order. -/
def replEvents (tr : List Event) : List Event := tr.filter isReplEvent

/-- The EN characters whose positional RU counterparts are punctuation
shared by both tables; conversion images of these characters are detected
as EN again, which breaks the round trip. -/
def sharedImagePreimages : List Char := ['/', '?', '@', '$', '^', '&']

/-- The punctuation characters that occur in both character tables. -/
def shared_punct : List Char := ['.', ',', ';', ':', '?', '"']

/-- The table selected by `detect_layout` for a given string. -/
def detected_table (s : String) : String :=
  if detect_layout s = "en" then EN_CHARS else RU_CHARS

/-- The table opposite to the one selected by `detect_layout`. -/
def other_table (s : String) : String :=
  if detect_layout s = "en" then RU_CHARS else EN_CHARS

end Keyborder

namespace Keyborder


theorem lookup_roundtrip_en :
    ∀ c ∈ EN_CHARS.data, tableLookup RU_TO_EN (tableLookup EN_TO_RU c) = c := by decide

theorem lookup_roundtrip_ru :
    ∀ c ∈ RU_CHARS.data, tableLookup EN_TO_RU (tableLookup RU_TO_EN c) = c := by decide

theorem lookup_mem_ru :
    ∀ c ∈ EN_CHARS.data, tableLookup EN_TO_RU c ∈ RU_CHARS.data := by decide

theorem lookup_mem_en :
    ∀ c ∈ RU_CHARS.data, tableLookup RU_TO_EN c ∈ EN_CHARS.data := by decide

theorem lookup_image_in_en_iff :
    ∀ c ∈ EN_CHARS.data,
      (tableLookup EN_TO_RU c ∈ EN_CHARS.data ↔ c ∈ sharedImagePreimages) := by decide

theorem lookup_positional_en :
    ∀ c ∈ EN_CHARS.data,
      RU_CHARS.data.get? (EN_CHARS.data.indexOf c) = some (tableLookup EN_TO_RU c) := by decide

theorem lookup_positional_ru :
    ∀ c ∈ RU_CHARS.data,
      EN_CHARS.data.get? (RU_CHARS.data.indexOf c) = some (tableLookup RU_TO_EN c) := by decide

theorem tableLookup_not_mem_en (c : Char) (h : c ∉ EN_CHARS.data) :
    tableLookup EN_TO_RU c = c := by
  unfold tableLookup
  cases hf : EN_TO_RU.reverse.find? (fun q => q.1 == c) with
  | none => rfl
  | some q =>
    exfalso
    have hp := List.find?_some hf
    have hmem : q ∈ EN_TO_RU := List.mem_reverse.mp (List.mem_of_find?_eq_some hf)
    obtain ⟨a, b⟩ := q
    have ha : a ∈ EN_CHARS.data := (List.of_mem_zip hmem).1
    exact h (eq_of_beq hp ▸ ha)

theorem tableLookup_not_mem_ru (c : Char) (h : c ∉ RU_CHARS.data) :
    tableLookup RU_TO_EN c = c := by
  unfold tableLookup
  cases hf : RU_TO_EN.reverse.find? (fun q => q.1 == c) with
  | none => rfl
  | some q =>
    exfalso
    have hp := List.find?_some hf
    have hmem : q ∈ RU_TO_EN := List.mem_reverse.mp (List.mem_of_find?_eq_some hf)
    obtain ⟨a, b⟩ := q
    have ha : a ∈ RU_CHARS.data := (List.of_mem_zip hmem).1
    exact h (eq_of_beq hp ▸ ha)

theorem detect_layout_eq_en_iff (s : String) :
    detect_layout s = "en" ↔
      s.data.countP (fun c => RU_CHARS.data.contains c) ≤
        s.data.countP (fun c => EN_CHARS.data.contains c) := by
  simp only [detect_layout]
  split
  · next h => simpa using h
  · next h =>
    simp only [Nat.not_le] at h
    constructor
    · intro he; exact absurd he (by decide)
    · intro hle; exact absurd hle (Nat.not_le.mpr h)

theorem detect_layout_eq_ru_iff (s : String) :
    detect_layout s = "ru" ↔
      s.data.countP (fun c => EN_CHARS.data.contains c) <
        s.data.countP (fun c => RU_CHARS.data.contains c) := by
  simp only [detect_layout]
  split
  · next h =>
    constructor
    · intro he; exact absurd he (by decide)
    · intro hlt; exact absurd h (Nat.not_le.mpr hlt)
  · next h =>
    simp only [Nat.not_le] at h
    simpa using h

theorem detect_en_or_ru (s : String) :
    detect_layout s = "en" ∨ detect_layout s = "ru" := by
  simp only [detect_layout]
  split
  · exact Or.inl rfl
  · exact Or.inr rfl

theorem convert_text_of_en (s : String) (h : detect_layout s = "en") :
    convert_text s = translate s EN_TO_RU := by
  unfold convert_text
  rw [if_pos h]

theorem convert_text_of_ru (s : String) (h : detect_layout s = "ru") :
    convert_text s = translate s RU_TO_EN := by
  unfold convert_text
  rw [if_neg]
  rw [h]
  decide



/-- A count of a predicate true on every member equals the length. -/
theorem countP_all {p : Char → Bool} {l : List Char} (h : ∀ c ∈ l, p c) :
    l.countP p = l.length :=
  List.countP_eq_length.mpr h

/-- A count of a predicate false on some member is below the length. -/
theorem countP_lt {p : Char → Bool} {l : List Char} (c0 : Char)
    (hc0 : c0 ∈ l) (hp : ¬ p c0 = true) : l.countP p < l.length :=
  lt_of_le_of_ne (List.countP_le_length p)
    (fun he => hp (List.countP_eq_length.mp he c0 hc0))

/-- Round trip on a string all of whose characters are in the EN table and
at least one of which maps outside the shared punctuation. -/
theorem roundtrip_en_side (s : String)
    (h1 : ∀ c ∈ s.data, c ∈ EN_CHARS.data)
    (h2 : ∃ c ∈ s.data, c ∉ sharedImagePreimages) :
    convert_text (convert_text s) = s := by
  have hdet : detect_layout s = "en" := by
    rw [detect_layout_eq_en_iff]
    calc s.data.countP (fun c => RU_CHARS.data.contains c)
        ≤ s.data.length := List.countP_le_length _
      _ = s.data.countP (fun c => EN_CHARS.data.contains c) :=
          (countP_all (fun c hc => List.elem_iff.mpr (h1 c hc))).symm
  rw [convert_text_of_en s hdet]
  have ht_data : (translate s EN_TO_RU).data = s.data.map (tableLookup EN_TO_RU) := rfl
  obtain ⟨c0, hc0s, hc0d⟩ := h2
  have hdet2 : detect_layout (translate s EN_TO_RU) = "ru" := by
    rw [detect_layout_eq_ru_iff, ht_data]
    have hru : (s.data.map (tableLookup EN_TO_RU)).countP
        (fun c => RU_CHARS.data.contains c) = (s.data.map (tableLookup EN_TO_RU)).length := by
      apply countP_all
      intro x hx
      obtain ⟨c, hc, rfl⟩ := List.mem_map.mp hx
      exact List.elem_iff.mpr (lookup_mem_ru c (h1 c hc))
    have hen : (s.data.map (tableLookup EN_TO_RU)).countP
        (fun c => EN_CHARS.data.contains c) < (s.data.map (tableLookup EN_TO_RU)).length := by
      apply countP_lt (tableLookup EN_TO_RU c0)
      · exact List.mem_map.mpr ⟨c0, hc0s, rfl⟩
      · intro hcontains
        exact hc0d ((lookup_image_in_en_iff c0 (h1 c0 hc0s)).mp (List.elem_iff.mp hcontains))
    exact lt_of_lt_of_le hen (le_of_eq hru.symm)
  rw [convert_text_of_ru _ hdet2]
  apply String.ext
  show (((translate s EN_TO_RU).data).map (tableLookup RU_TO_EN)) = s.data
  rw [ht_data, List.map_map]
  have : ∀ c ∈ s.data, (tableLookup RU_TO_EN ∘ tableLookup EN_TO_RU) c = id c := by
    intro c hc
    exact lookup_roundtrip_en c (h1 c hc)
  rw [List.map_eq_map_iff.mpr this, List.map_id]

/-- Round trip on a string all of whose characters are in the RU table,
when the string is detected as RU. -/
theorem roundtrip_ru_side (s : String)
    (h1 : ∀ c ∈ s.data, c ∈ RU_CHARS.data)
    (hdet : detect_layout s = "ru") :
    convert_text (convert_text s) = s := by
  rw [convert_text_of_ru s hdet]
  have ht_data : (translate s RU_TO_EN).data = s.data.map (tableLookup RU_TO_EN) := rfl
  have hdet2 : detect_layout (translate s RU_TO_EN) = "en" := by
    rw [detect_layout_eq_en_iff, ht_data]
    have hen : (s.data.map (tableLookup RU_TO_EN)).countP
        (fun c => EN_CHARS.data.contains c) = (s.data.map (tableLookup RU_TO_EN)).length := by
      apply countP_all
      intro x hx
      obtain ⟨c, hc, rfl⟩ := List.mem_map.mp hx
      exact List.elem_iff.mpr (lookup_mem_en c (h1 c hc))
    calc (s.data.map (tableLookup RU_TO_EN)).countP (fun c => RU_CHARS.data.contains c)
        ≤ (s.data.map (tableLookup RU_TO_EN)).length := List.countP_le_length _
      _ = _ := hen.symm
  rw [convert_text_of_en _ hdet2]
  apply String.ext
  show (((translate s RU_TO_EN).data).map (tableLookup EN_TO_RU)) = s.data
  rw [ht_data, List.map_map]
  have : ∀ c ∈ s.data, (tableLookup EN_TO_RU ∘ tableLookup RU_TO_EN) c = id c := by
    intro c hc
    exact lookup_roundtrip_ru c (h1 c hc)
  rw [List.map_eq_map_iff.mpr this, List.map_id]



/-! ## Trace-observer lemmas -/

theorem backspaceCount_append (a b : List Event) :
    backspaceCount (a ++ b) = backspaceCount a + backspaceCount b := by
  simp [backspaceCount, List.countP_append]

theorem typedString_append (a b : List Event) :
    typedString (a ++ b) = typedString a ++ typedString b := by
  simp [typedString, List.filterMap_append]

theorem backspaceCount_backspace_events (n : Nat) :
    backspaceCount (backspace_events n) = n := by
  induction n with
  | zero => rfl
  | succ k ih =>
    have hsplit : backspace_events (k + 1) =
        [Event.keyPress VK_BACKSPACE, Event.sleep 10] ++ backspace_events k := by
      unfold backspace_events
      rw [List.replicate_succ, List.flatten_cons]
    have h1 : backspaceCount [Event.keyPress VK_BACKSPACE, Event.sleep 10] = 1 := rfl
    rw [hsplit, backspaceCount_append, ih, h1]
    omega

theorem typedString_backspace_events (n : Nat) :
    typedString (backspace_events n) = [] := by
  induction n with
  | zero => rfl
  | succ k ih =>
    have hsplit : backspace_events (k + 1) =
        [Event.keyPress VK_BACKSPACE, Event.sleep 10] ++ backspace_events k := by
      unfold backspace_events
      rw [List.replicate_succ, List.flatten_cons]
    rw [hsplit, typedString_append, ih]
    rfl

theorem backspaceCount_type_text (t : String) :
    backspaceCount (type_text t) = 0 := by
  show backspaceCount ((t.data.map (fun c => [Event.typeChar c, Event.sleep 10])).flatten) = 0
  induction t.data with
  | nil => rfl
  | cons c cs ih =>
    rw [List.map_cons, List.flatten_cons, backspaceCount_append, ih]
    rfl

theorem typedString_type_text (t : String) :
    typedString (type_text t) = t.data := by
  show typedString ((t.data.map (fun c => [Event.typeChar c, Event.sleep 10])).flatten) = t.data
  induction t.data with
  | nil => rfl
  | cons c cs ih =>
    rw [List.map_cons, List.flatten_cons, typedString_append, ih]
    rfl

theorem backspaceCount_switch (lang : String) (fg : Bool) :
    backspaceCount (switch_keyboard_layout lang fg) = 0 := by
  unfold switch_keyboard_layout
  cases fg <;> rfl

theorem typedString_switch (lang : String) (fg : Bool) :
    typedString (switch_keyboard_layout lang fg) = [] := by
  unfold switch_keyboard_layout
  cases fg <;> rfl

theorem backspaceCount_sleep (ms : Nat) : backspaceCount [Event.sleep ms] = 0 := rfl

theorem typedString_sleep (ms : Nat) : typedString [Event.sleep ms] = [] := rfl




/-- C3 counterexample: `"/"` is drawn purely from the EN table, yet the
round trip fails: `convert_text (convert_text "/") = "ю"`. -/
theorem claim3_counterexample :
    (∀ c ∈ ("/" : String).data, c ∈ EN_CHARS.data) ∧
    convert_text (convert_text "/") = "ю" ∧
    convert_text (convert_text "/") ≠ "/" := by decide

/-- C3 (amended): `convert_text (convert_text s) = s` for `s` drawn purely
from one alphabet's table, provided `s` is empty or has a character
outside `"/?@$^&"` (the EN characters whose conversion images are
punctuation shared by both tables, for which the round trip fails). -/
theorem claim3_roundtrip_amended (s : String)
    (hA : (∀ c ∈ s.data, c ∈ EN_CHARS.data) ∨ (∀ c ∈ s.data, c ∈ RU_CHARS.data))
    (hB : s.data = [] ∨ ∃ c ∈ s.data, c ∉ sharedImagePreimages) :
    convert_text (convert_text s) = s := by
  cases hB with
  | inl hnil =>
    have hs : s = "" := String.ext (by rw [hnil])
    rw [hs]
    decide
  | inr hex =>
    cases hA with
    | inl hEN => exact roundtrip_en_side s hEN hex
    | inr hRU =>
      rcases detect_en_or_ru s with hdet | hdet
      · have hallEN : ∀ c ∈ s.data, c ∈ EN_CHARS.data := by
          have hru : s.data.countP (fun c => RU_CHARS.data.contains c) = s.data.length :=
            countP_all (fun c hc => List.elem_iff.mpr (hRU c hc))
          have hle := (detect_layout_eq_en_iff s).mp hdet
          have hhi : s.data.countP (fun c => EN_CHARS.data.contains c) = s.data.length :=
            le_antisymm (List.countP_le_length _) (hru ▸ hle)
          intro c hc
          exact List.elem_iff.mp (List.countP_eq_length.mp hhi c hc)
        exact roundtrip_en_side s hallEN hex
      · exact roundtrip_ru_side s hRU hdet

theorem claim3_witness : convert_text (convert_text "hello") = "hello" :=
  claim3_roundtrip_amended "hello" (Or.inl (by decide))
    (Or.inr ⟨'h', by decide, by decide⟩)

/-- C4: for a string drawn from one alphabet's table, `convert_text`
preserves length, maps every character of the detected table to the
character at the same position in the other table, and leaves characters
outside the detected table unchanged.  (`convert_text` is a total Lean
function, hence pure and deterministic.) -/
theorem claim4_convert_positional (s : String)
    (hA : (∀ c ∈ s.data, c ∈ EN_CHARS.data) ∨ (∀ c ∈ s.data, c ∈ RU_CHARS.data)) :
    (convert_text s).length = s.length ∧
    ∀ i c, s.data.get? i = some c →
      ((c ∈ (detected_table s).data →
          (convert_text s).data.get? i =
            (other_table s).data.get? ((detected_table s).data.indexOf c)) ∧
       (c ∉ (detected_table s).data →
          (convert_text s).data.get? i = some c)) := by
  rcases detect_en_or_ru s with hdet | hdet
  · have hconv := convert_text_of_en s hdet
    have hdt : detected_table s = EN_CHARS := by
      unfold detected_table; rw [if_pos hdet]
    have hot : other_table s = RU_CHARS := by
      unfold other_table; rw [if_pos hdet]
    constructor
    · rw [hconv]
      show (s.data.map (tableLookup EN_TO_RU)).length = s.data.length
      rw [List.length_map]
    · intro i c hic
      rw [hconv, hdt, hot]
      constructor
      · intro hcmem
        show (s.data.map (tableLookup EN_TO_RU)).get? i = _
        rw [List.get?_map, hic, Option.map_some']
        exact (lookup_positional_en c hcmem).symm
      · intro hcnot
        show (s.data.map (tableLookup EN_TO_RU)).get? i = some c
        rw [List.get?_map, hic, Option.map_some', tableLookup_not_mem_en c hcnot]
  · have hconv := convert_text_of_ru s hdet
    have hdt : detected_table s = RU_CHARS := by
      unfold detected_table; rw [hdet]; rfl
    have hot : other_table s = EN_CHARS := by
      unfold other_table; rw [hdet]; rfl
    constructor
    · rw [hconv]
      show (s.data.map (tableLookup RU_TO_EN)).length = s.data.length
      rw [List.length_map]
    · intro i c hic
      rw [hconv, hdt, hot]
      constructor
      · intro hcmem
        show (s.data.map (tableLookup RU_TO_EN)).get? i = _
        rw [List.get?_map, hic, Option.map_some']
        exact (lookup_positional_ru c hcmem).symm
      · intro hcnot
        show (s.data.map (tableLookup RU_TO_EN)).get? i = some c
        rw [List.get?_map, hic, Option.map_some', tableLookup_not_mem_ru c hcnot]

theorem claim4_witness :
    (convert_text "hello").length = ("hello" : String).length ∧
    (convert_text "hello").data.get? 0 =
      (other_table "hello").data.get? ((detected_table "hello").data.indexOf 'h') := by
  have h := claim4_convert_positional "hello" (Or.inl (by decide))
  exact ⟨h.1, (h.2 0 'h' (by decide)).1 (by decide)⟩

/-- C5: `detect_layout` returns `"en"` (the Source alphabet) exactly when
the EN-table character count is at least the RU-table count, `"ru"` (the
Target alphabet) otherwise; empty and alphabet-free text detect as
`"en"`. -/
theorem claim5_detect_tiebreak (s : String) :
    (detect_layout s = "en" ∨ detect_layout s = "ru") ∧
    (detect_layout s = "en" ↔
      s.data.countP (fun c => RU_CHARS.data.contains c) ≤
        s.data.countP (fun c => EN_CHARS.data.contains c)) ∧
    (detect_layout s = "ru" ↔
      s.data.countP (fun c => EN_CHARS.data.contains c) <
        s.data.countP (fun c => RU_CHARS.data.contains c)) ∧
    ((∀ c ∈ s.data, c ∉ EN_CHARS.data ∧ c ∉ RU_CHARS.data) →
      detect_layout s = "en") ∧
    detect_layout "" = "en" := by
  refine ⟨detect_en_or_ru s, detect_layout_eq_en_iff s, detect_layout_eq_ru_iff s, ?_, by decide⟩
  intro h
  rw [detect_layout_eq_en_iff]
  have hru : s.data.countP (fun c => RU_CHARS.data.contains c) = 0 := by
    rw [List.countP_eq_zero]
    intro c hc
    exact fun hcontains => (h c hc).2 (List.elem_iff.mp hcontains)
  rw [hru]
  exact Nat.zero_le _

theorem claim5_witness : detect_layout "12 34" = "en" :=
  (claim5_detect_tiebreak "12 34").2.2.2.1 (by decide)

/-- C9: the classifier yields `LegacyConsole` exactly for the class name
`ConsoleWindowClass`; class names outside the console set, including the
empty class name of a null or invalid handle, yield `Plain`. -/
theorem claim9_classifier (cn : String) :
    (classify_window cn = WindowCategory.LegacyConsole ↔ cn = "ConsoleWindowClass") ∧
    (cn ∉ console_classes → classify_window cn = WindowCategory.Plain) ∧
    classify_window "" = WindowCategory.Plain := by
  refine ⟨⟨?_, ?_⟩, ?_, by decide⟩
  · intro h
    unfold classify_window at h
    by_cases hc : is_console_window cn = true
    · rw [if_pos hc] at h
      by_cases hcl : is_classic_console cn = true
      · unfold is_classic_console at hcl
        exact eq_of_beq hcl
      · rw [if_neg hcl] at h
        exact absurd h (by decide)
    · rw [if_neg hc] at h
      exact absurd h (by decide)
  · intro h
    subst h
    decide
  · intro hnot
    unfold classify_window
    rw [if_neg]
    intro hc
    unfold is_console_window at hc
    exact hnot (List.elem_iff.mp hc)

theorem claim9_witness : classify_window "Notepad" = WindowCategory.Plain :=
  (claim9_classifier "Notepad").2.1 (by decide)

/-- C10: the punctuation `. , ; : ? "` occurs in both tables, so each
occurrence counts toward both alphabets; a string of only shared
characters ties, is detected as EN, and is rewritten through `EN_TO_RU`
(in particular `convert_text "." = "ю"`). -/
theorem claim10_shared_punctuation (s : String) :
    (∀ c ∈ shared_punct, c ∈ EN_CHARS.data ∧ c ∈ RU_CHARS.data) ∧
    ((∀ c ∈ s.data, c ∈ shared_punct) →
      s.data.countP (fun c => EN_CHARS.data.contains c) =
        s.data.countP (fun c => RU_CHARS.data.contains c) ∧
      detect_layout s = "en" ∧
      convert_text s = translate s EN_TO_RU) ∧
    convert_text "." = "ю" := by
  refine ⟨by decide, ?_, by decide⟩
  intro h
  have hboth : ∀ c ∈ shared_punct, c ∈ EN_CHARS.data ∧ c ∈ RU_CHARS.data := by decide
  have hen : s.data.countP (fun c => EN_CHARS.data.contains c) = s.data.length :=
    countP_all (fun c hc => List.elem_iff.mpr (hboth c (h c hc)).1)
  have hru : s.data.countP (fun c => RU_CHARS.data.contains c) = s.data.length :=
    countP_all (fun c hc => List.elem_iff.mpr (hboth c (h c hc)).2)
  have heq : s.data.countP (fun c => EN_CHARS.data.contains c) =
      s.data.countP (fun c => RU_CHARS.data.contains c) := by rw [hen, hru]
  have hdet : detect_layout s = "en" :=
    (detect_layout_eq_en_iff s).mpr (le_of_eq heq.symm)
  exact ⟨heq, hdet, convert_text_of_en s hdet⟩

theorem claim10_witness :
    detect_layout "." = "en" ∧ convert_text "." = translate "." EN_TO_RU := by
  have h := (claim10_shared_punctuation ".").2.1 (by decide)
  exact ⟨h.2.1, h.2.2⟩



theorem setClipEvents_append (a b : List Event) :
    setClipEvents (a ++ b) = setClipEvents a ++ setClipEvents b := by
  simp [setClipEvents, List.filterMap_append]

theorem setClipEvents_switch (lang : String) (fg : Bool) :
    setClipEvents (switch_keyboard_layout lang fg) = [] := by
  unfold switch_keyboard_layout
  cases fg <;> rfl

theorem pasteCount_append (a b : List Event) :
    pasteCount (a ++ b) = pasteCount a + pasteCount b := by
  simp [pasteCount, List.countP_append]

theorem pasteCount_switch (lang : String) (fg : Bool) :
    pasteCount (switch_keyboard_layout lang fg) = 0 := by
  unfold switch_keyboard_layout
  cases fg <;> rfl

/-- C1 counterexample: in the Plain path a successful replacement sends no
backspace and no Unicode-injection events at all (the original text here
has length 6); the text is replaced via clipboard paste instead. -/
theorem claim1_counterexample :
    (convert_selected_text_plain ⟨some "ghbdtn", none, true, true⟩).1 = true ∧
    backspaceCount (convert_selected_text_plain ⟨some "ghbdtn", none, true, true⟩).2 = 0 ∧
    typedString (convert_selected_text_plain ⟨some "ghbdtn", none, true, true⟩).2 = [] ∧
    ("ghbdtn" : String).length = 6 ∧
    convert_text "ghbdtn" ≠ "ghbdtn" := by decide

/-- C1 (amended): the LegacyConsole path deletes exactly
`len(originalText)` characters via one backspace per character, each
followed by a 10 ms settle delay, then injects `convertedText`
character-by-character via Unicode input; the Plain path of
`convert_selected_text` instead sends no backspaces and no Unicode
injections: it writes the converted text to the clipboard once and sends
a single Ctrl+V paste. -/
theorem claim1_replacement_amended :
    (∀ (cenv : ConsoleEnv) (fg : Bool) (w : String),
        (get_console_last_word cenv).1 = some w →
        convert_text w ≠ w →
        (convert_in_console cenv fg).1 = true ∧
        backspaceCount (convert_in_console cenv fg).2 = w.length ∧
        typedString (convert_in_console cenv fg).2 = (convert_text w).data ∧
        (convert_in_console cenv fg).2 =
          [Event.sleep 100] ++ backspace_events w.length ++ [Event.sleep 50] ++
            type_text (convert_text w) ++ [Event.sleep 50] ++
            switch_keyboard_layout (target_layout (detect_layout w)) fg) ∧
    (∀ (penv : PlainEnv) (s : String),
        penv.clip1 = some s → s.data ≠ [] →
        convert_text s ≠ s → penv.setClipboardOk = true →
        (convert_selected_text_plain penv).1 = true ∧
        backspaceCount (convert_selected_text_plain penv).2 = 0 ∧
        typedString (convert_selected_text_plain penv).2 = [] ∧
        setClipEvents (convert_selected_text_plain penv).2 = [convert_text s] ∧
        pasteCount (convert_selected_text_plain penv).2 = 1) := by
  constructor
  · intro cenv fg w hw hne
    have hwne : w.data ≠ [] := by
      intro hnil
      apply hne
      have hs : w = "" := String.ext (by rw [hnil])
      rw [hs]
      decide
    have hred : convert_in_console cenv fg =
        (true, [Event.sleep 100] ++ backspace_events w.length ++ [Event.sleep 50] ++
          type_text (convert_text w) ++ [Event.sleep 50] ++
          switch_keyboard_layout (target_layout (detect_layout w)) fg) := by
      simp only [convert_in_console, hw]
      rw [if_neg hwne, if_neg hne]
    refine ⟨by rw [hred], ?_, ?_, by rw [hred]⟩
    · rw [hred]
      simp only [backspaceCount_append, backspaceCount_backspace_events,
        backspaceCount_type_text, backspaceCount_switch, backspaceCount_sleep]
      omega
    · rw [hred]
      simp only [typedString_append, typedString_backspace_events,
        typedString_type_text, typedString_switch, typedString_sleep,
        List.nil_append, List.append_nil]
  · intro penv s hclip hsne hne hset
    have hfal2 : isFalsy (some s) = false := by
      show s.data.isEmpty = false
      cases hd : s.data with
      | nil => exact absurd hd hsne
      | cons a l => rfl
    have hred : convert_selected_text_plain penv =
        (true, ([Event.sleep 50, Event.clearClip, Event.ctrlCombo VK_INSERT,
            Event.sleep 80] ++ [Event.setClip (convert_text s)]) ++
          [Event.ctrlCombo VK_V, Event.sleep 20] ++
          switch_keyboard_layout (target_layout (detect_layout s)) penv.fgValid) := by
      simp only [convert_selected_text_plain, plain_acquire, hclip, hfal2,
        Bool.false_eq_true, if_false, Option.getD_some, hset]
      rw [if_neg hne]
      simp
    refine ⟨by rw [hred], ?_, ?_, ?_, ?_⟩
    · rw [hred]
      simp only [backspaceCount_append, backspaceCount_switch]
      have h0 : backspaceCount [Event.sleep 50, Event.clearClip,
          Event.ctrlCombo VK_INSERT, Event.sleep 80] = 0 := rfl
      have h1 : backspaceCount [Event.setClip (convert_text s)] = 0 := rfl
      have h2 : backspaceCount [Event.ctrlCombo VK_V, Event.sleep 20] = 0 := rfl
      rw [h0, h1, h2]
    · rw [hred]
      simp only [typedString_append, typedString_switch]
      have h0 : typedString [Event.sleep 50, Event.clearClip,
          Event.ctrlCombo VK_INSERT, Event.sleep 80] = [] := rfl
      have h1 : typedString [Event.setClip (convert_text s)] = [] := rfl
      have h2 : typedString [Event.ctrlCombo VK_V, Event.sleep 20] = [] := rfl
      rw [h0, h1, h2]
      simp
    · rw [hred]
      simp only [setClipEvents_append, setClipEvents_switch]
      have h0 : setClipEvents [Event.sleep 50, Event.clearClip,
          Event.ctrlCombo VK_INSERT, Event.sleep 80] = [] := rfl
      have h1 : setClipEvents [Event.setClip (convert_text s)] = [convert_text s] := rfl
      have h2 : setClipEvents [Event.ctrlCombo VK_V, Event.sleep 20] = [] := rfl
      rw [h0, h1, h2]
      simp
    · rw [hred]
      simp only [pasteCount_append, pasteCount_switch]
      have h0 : pasteCount [Event.sleep 50, Event.clearClip,
          Event.ctrlCombo VK_INSERT, Event.sleep 80] = 0 := rfl
      have h1 : pasteCount [Event.setClip (convert_text s)] = 0 := rfl
      have h2 : pasteCount [Event.ctrlCombo VK_V, Event.sleep 20] = 1 := rfl
      rw [h0, h1, h2]

theorem claim1_witness :
    (convert_in_console ⟨true, true, true, 6, "ghbdtn"⟩ true).1 = true ∧
    backspaceCount (convert_in_console ⟨true, true, true, 6, "ghbdtn"⟩ true).2 = 6 ∧
    typedString (convert_in_console ⟨true, true, true, 6, "ghbdtn"⟩ true).2 =
      ("привет" : String).data ∧
    (convert_selected_text_plain ⟨some "ghbdtn", none, true, true⟩).1 = true ∧
    setClipEvents (convert_selected_text_plain ⟨some "ghbdtn", none, true, true⟩).2 =
      ["привет"] := by
  have hc := claim1_replacement_amended.1 ⟨true, true, true, 6, "ghbdtn"⟩ true "ghbdtn"
    (by decide) (by decide)
  have hp := claim1_replacement_amended.2 ⟨some "ghbdtn", none, true, true⟩ "ghbdtn"
    rfl (by decide) (by decide) rfl
  refine ⟨hc.1, ?_, ?_, hp.1, ?_⟩
  · have := hc.2.1
    simpa using this
  · have := hc.2.2.1
    simpa using this
  · have := hp.2.2.2.1
    simpa using this



/-- C2 counterexample: `"руддш"` converts to `"helli"`, not `"hello"`
(`'ш'` is the RU counterpart of `'i'`; `"hello"` on the RU layout is
`"руддщ"`). -/
theorem claim2_counterexample :
    convert_text "руддш" = "helli" ∧ convert_text "руддш" ≠ "hello" := by decide

/-- C2 (amended to the input `"руддщ"`, the Cyrillic positional equivalent
of `"hello"`): it detects as RU, converts to `"hello"`, and the terminal
replacement issues exactly 5 backspace events, then the 5 injections
`h e l l o`, then one layout-switch request targeting `HKL_EN`. -/
theorem claim2_scenario_amended :
    detect_layout "руддщ" = "ru" ∧
    convert_text "руддщ" = "hello" ∧
    (convert_in_terminal ⟨some "руддщ", true⟩).1 = true ∧
    backspaceCount (convert_in_terminal ⟨some "руддщ", true⟩).2 = 5 ∧
    typedString (convert_in_terminal ⟨some "руддщ", true⟩).2 = ("hello" : String).data ∧
    switchTargets (convert_in_terminal ⟨some "руддщ", true⟩).2 = [HKL_EN] ∧
    replEvents (convert_in_terminal ⟨some "руддщ", true⟩).2 =
      List.replicate 5 (Event.keyPress VK_BACKSPACE) ++
        [Event.typeChar 'h', Event.typeChar 'e', Event.typeChar 'l', Event.typeChar 'l',
         Event.typeChar 'o', Event.layoutSwitch HKL_EN] := by decide

/-- C6: in all three conversion paths, when the converted text equals the
acquired original text the attempt returns `false` and the trace contains
no backspace events, no Unicode injections (and, for the Plain path, no
clipboard write). -/
theorem claim6_abort_no_events :
    (∀ (cenv : ConsoleEnv) (fg : Bool) (w : String),
        (get_console_last_word cenv).1 = some w →
        convert_text w = w →
        convert_in_console cenv fg = (false, [Event.sleep 100])) ∧
    (∀ (tenv : TermEnv) (w0 : String),
        tenv.clip = some w0 →
        convert_text (pyStrip w0) = pyStrip w0 →
        (convert_in_terminal tenv).1 = false ∧
        backspaceCount (convert_in_terminal tenv).2 = 0 ∧
        typedString (convert_in_terminal tenv).2 = []) ∧
    (∀ penv : PlainEnv,
        convert_text ((plain_acquire penv).1.getD "") = (plain_acquire penv).1.getD "" →
        (convert_selected_text_plain penv).1 = false ∧
        backspaceCount (convert_selected_text_plain penv).2 = 0 ∧
        typedString (convert_selected_text_plain penv).2 = [] ∧
        setClipEvents (convert_selected_text_plain penv).2 = []) := by
  refine ⟨?_, ?_, ?_⟩
  · intro cenv fg w hw heq
    simp only [convert_in_console, hw]
    by_cases hnil : w.data = []
    · rw [if_pos hnil]
    · rw [if_neg hnil, if_pos heq]
  · intro tenv w0 hclip heq
    have hred : convert_in_terminal tenv =
        (false, [Event.sleep 100, Event.clearClip,
          Event.twoModCombo VK_CONTROL VK_SHIFT VK_C, Event.sleep 200]) := by
      simp only [convert_in_terminal, hclip]
      by_cases h0 : w0.data = []
      · rw [if_pos h0]
      · rw [if_neg h0]
        by_cases h1 : (pyStrip w0).data = []
        · rw [if_pos h1]
        · rw [if_neg h1, if_pos heq]
    rw [hred]
    exact ⟨rfl, rfl, rfl⟩
  · intro penv heq
    have hacq_bs : backspaceCount (plain_acquire penv).2 = 0 := by
      unfold plain_acquire
      by_cases h : isFalsy penv.clip1 = true
      · rw [if_pos h]
        rfl
      · rw [if_neg h]
        rfl
    have hacq_ts : typedString (plain_acquire penv).2 = [] := by
      unfold plain_acquire
      by_cases h : isFalsy penv.clip1 = true
      · rw [if_pos h]
        rfl
      · rw [if_neg h]
        rfl
    have hacq_sc : setClipEvents (plain_acquire penv).2 = [] := by
      unfold plain_acquire
      by_cases h : isFalsy penv.clip1 = true
      · rw [if_pos h]
        rfl
      · rw [if_neg h]
        rfl
    simp only [convert_selected_text_plain]
    by_cases hfal : isFalsy (plain_acquire penv).1 = true
    · rw [if_pos hfal]
      exact ⟨rfl, hacq_bs, hacq_ts, hacq_sc⟩
    · rw [if_neg hfal, if_pos heq]
      exact ⟨rfl, hacq_bs, hacq_ts, hacq_sc⟩

theorem claim6_witness :
    convert_in_console ⟨true, true, true, 3, "123"⟩ true = (false, [Event.sleep 100]) ∧
    (convert_in_terminal ⟨some "123", true⟩).1 = false ∧
    (convert_selected_text_plain ⟨some "123", none, true, true⟩).1 = false := by
  refine ⟨?_, ?_, ?_⟩
  · exact claim6_abort_no_events.1 ⟨true, true, true, 3, "123"⟩ true "123"
      (by decide) (by decide)
  · exact (claim6_abort_no_events.2.1 ⟨some "123", true⟩ "123" rfl (by decide)).1
  · exact (claim6_abort_no_events.2.2 ⟨some "123", none, true, true⟩ (by decide)).1

/-- C7: in the Plain acquisition, a falsy first clipboard read triggers the
Ctrl+Shift+Left fallback exactly once (with a second Ctrl+Insert copy);
a non-falsy first read is returned with no fallback; when both reads are
falsy the attempt returns `false` with no replacement events. -/
theorem claim7_plain_fallback_once :
    (∀ penv : PlainEnv, isFalsy penv.clip1 = true →
        (plain_acquire penv).1 = penv.clip2 ∧
        fallbackComboCount (plain_acquire penv).2 = 1 ∧
        copyComboCount (plain_acquire penv).2 = 2) ∧
    (∀ penv : PlainEnv, isFalsy penv.clip1 = false →
        (plain_acquire penv).1 = penv.clip1 ∧
        fallbackComboCount (plain_acquire penv).2 = 0 ∧
        copyComboCount (plain_acquire penv).2 = 1) ∧
    (∀ penv : PlainEnv, isFalsy penv.clip1 = true → isFalsy penv.clip2 = true →
        (convert_selected_text_plain penv).1 = false ∧
        backspaceCount (convert_selected_text_plain penv).2 = 0 ∧
        typedString (convert_selected_text_plain penv).2 = [] ∧
        setClipEvents (convert_selected_text_plain penv).2 = []) := by
  refine ⟨?_, ?_, ?_⟩
  · intro penv h
    unfold plain_acquire
    rw [if_pos h]
    exact ⟨rfl, rfl, rfl⟩
  · intro penv h
    unfold plain_acquire
    rw [if_neg]
    · exact ⟨rfl, rfl, rfl⟩
    · rw [h]
      exact Bool.false_ne_true
  · intro penv h1 h2
    have hacq1 : (plain_acquire penv).1 = penv.clip2 := by
      unfold plain_acquire
      rw [if_pos h1]
    have hcond : isFalsy (plain_acquire penv).1 = true := by
      rw [hacq1]
      exact h2
    simp only [convert_selected_text_plain]
    rw [if_pos hcond]
    refine ⟨rfl, ?_, ?_, ?_⟩
    · unfold plain_acquire
      rw [if_pos h1]
      rfl
    · unfold plain_acquire
      rw [if_pos h1]
      rfl
    · unfold plain_acquire
      rw [if_pos h1]
      rfl

theorem claim7_witness :
    (plain_acquire ⟨none, some "word", true, true⟩).1 = some "word" ∧
    fallbackComboCount (plain_acquire ⟨none, some "word", true, true⟩).2 = 1 ∧
    (plain_acquire ⟨some "sel", none, true, true⟩).1 = some "sel" ∧
    fallbackComboCount (plain_acquire ⟨some "sel", none, true, true⟩).2 = 0 ∧
    (convert_selected_text_plain ⟨none, none, true, true⟩).1 = false := by
  have ha := claim7_plain_fallback_once.1 ⟨none, some "word", true, true⟩ rfl
  have hb := claim7_plain_fallback_once.2.1 ⟨some "sel", none, true, true⟩ (by decide)
  have hc := claim7_plain_fallback_once.2.2 ⟨none, none, true, true⟩ rfl rfl
  exact ⟨ha.1, ha.2.1, hb.1, hb.2.1, hc.1⟩

/-- C8: after a successful `AttachConsole`, the code fails to call
`FreeConsole` on the buffer-info-failure and cursor-at-column-zero exit
paths (their traces end without a second `freeConsole`), while still
returning `none` there and on attach failure, as the claim states. -/
theorem claim8_missing_free_console :
    get_console_last_word ⟨true, true, false, 3, "abc"⟩ =
      (none, [ConsoleOp.freeConsole, ConsoleOp.attachConsole, ConsoleOp.getStdHandle,
        ConsoleOp.getBufferInfo]) ∧
    get_console_last_word ⟨true, true, true, 0, "abc"⟩ =
      (none, [ConsoleOp.freeConsole, ConsoleOp.attachConsole, ConsoleOp.getStdHandle,
        ConsoleOp.getBufferInfo]) ∧
    ((get_console_last_word ⟨true, true, false, 3, "abc"⟩).2.drop 2).count
      ConsoleOp.freeConsole = 0 ∧
    ((get_console_last_word ⟨true, true, true, 0, "abc"⟩).2.drop 2).count
      ConsoleOp.freeConsole = 0 ∧
    get_console_last_word ⟨false, true, true, 3, "abc"⟩ =
      (none, [ConsoleOp.freeConsole, ConsoleOp.attachConsole]) := by decide


end Keyborder
